import Mathlib

/-!
Verification of the datastar SSE encoder and streaming loops
(`src/datastar/datastar.py`) against their natural-language specification.

The Python source is shallowly embedded: the pure encoder methods of
`DatastarEvent` become Lean functions returning `Except` where the Python can
raise, and the cooperative loops (`DatastarStreamer.stream`,
`create_sse_stream`) become explicit step functions over a loop-state record,
with the injected asynchronous source modelled as a sequence of pull results
and the event-loop clock as a sequence of tick times.
-/

namespace Datastar

/-- `MergeType` enum from `datastar.py` (a `str`-valued enum). -/
inductive MergeType
  | morph
  | inner
  | outer
  | prepend
  | append
  | before
  | after
  | delete
  | upsertAttributes
deriving DecidableEq

/-- The wire token of each `MergeType` member (its `.value`). -/
def MergeType.value : MergeType → String
  | .morph => "morph_element"
  | .inner => "inner_element"
  | .outer => "outer_element"
  | .prepend => "prepend_element"
  | .append => "append_element"
  | .before => "before_element"
  | .after => "after_element"
  | .delete => "delete_element"
  | .upsertAttributes => "upsert_attributes"

/-- `EventType` enum from `datastar.py`. -/
inductive EventType
  | fragment
  | signal
deriving DecidableEq

/-- The wire token of each `EventType` member (its `.value`). -/
def EventType.value : EventType → String
  | .fragment => "datastar-fragment"
  | .signal => "datastar-signal"

/-- JSON-serializable scalar values appearing in signal mappings. -/
inductive Json
  | str (s : String)
  | int (n : Int)
  | bool (b : Bool)
deriving DecidableEq

/-- Python truthiness of a `Json` value. -/
def Json.truthy : Json → Bool
  | .str s => !(s == "")
  | .int n => !(n == 0)
  | .bool b => b

/-- Python `str()` of a `Json` value. -/
def pyStr : Json → String
  | .str s => s
  | .int n => toString n
  | .bool true => "True"
  | .bool false => "False"

/-- One hexadecimal digit (lowercase), as used by `json.dumps` escapes. -/
def hexDigit (n : Nat) : Char :=
  if n < 10 then Char.ofNat (48 + n) else Char.ofNat (87 + n)

/-- Four-digit lowercase hex rendering of a code point below 2^16. -/
def hex4 (n : Nat) : String :=
  String.mk [hexDigit (n / 4096 % 16), hexDigit (n / 256 % 16),
             hexDigit (n / 16 % 16), hexDigit (n % 16)]

/-- Model of `json.dumps` string-character escaping with the default
`ensure_ascii=True` (code points above 2^16 are not modelled). -/
def escapeChar (ch : Char) : String :=
  if ch = '"' then "\\\""
  else if ch = '\\' then "\\\\"
  else if ch = '\n' then "\\n"
  else if ch = '\t' then "\\t"
  else if ch = '\r' then "\\r"
  else if ch = Char.ofNat 8 then "\\b"
  else if ch = Char.ofNat 12 then "\\f"
  else if ch.toNat < 32 || 126 < ch.toNat then "\\u" ++ hex4 ch.toNat
  else String.singleton ch

/-- A JSON string literal as produced by `json.dumps`. -/
def jsonQuote (s : String) : String :=
  "\"" ++ String.join (s.data.map escapeChar) ++ "\""

/-- `json.dumps` of a scalar value. -/
def Json.dumps : Json → String
  | .str s => jsonQuote s
  | .int n => toString n
  | .bool true => "true"
  | .bool false => "false"

/-- `json.dumps` of a mapping, with the default separators
(`", "` between members, `": "` after each key). -/
def dumpsDict (kvs : List (String × Json)) : String :=
  "\x7b" ++ String.intercalate ", " (kvs.map fun kv => jsonQuote kv.1 ++ ": " ++ kv.2.dumps) ++ "\x7d"

/-- The `FragmentConfig` TypedDict (`total=False`): `Option.none` models an
absent key (or, for `merge`/`selector`, a key explicitly set to `None`,
which `dict.get` does not distinguish from absence). -/
structure FragmentConfig where
  fragment : Option String := Option.none
  merge : Option MergeType := Option.none
  selector : Option String := Option.none
  settle_duration : Option Int := Option.none
  use_view_transitions : Option Bool := Option.none
  redirect : Option String := Option.none
  error : Option String := Option.none
deriving DecidableEq

/-- A single value handed to `DatastarEvent.format_sse`: a string, a
`FragmentConfig`-shaped dict, or a plain JSON mapping (the signal shape). -/
inductive Atom
  | str (s : String)
  | cfg (c : FragmentConfig)
  | json (kvs : List (String × Json))
deriving DecidableEq

/-- The runtime `content` of a `DatastarEvent`: a single string/dict, a list
of such values, or some other runtime value (`other`) that is none of
list, `str`, or `dict`. -/
inductive Content
  | atom (a : Atom)
  | items (l : List Atom)
  | other
deriving DecidableEq

/-- Python exceptions the embedded code can raise. -/
inductive PyErr
  | keyError
  | attributeError
  | assertionError
  | typeError
deriving DecidableEq

/-- The `DatastarEvent` dataclass, with the same field defaults. -/
structure DatastarEvent where
  content : Content
  merge : Option MergeType := Option.none
  selector : Option String := Option.none
  settle_duration : Option Int := Option.none
  use_view_transitions : Option Bool := Option.none
  redirect : Option String := Option.none
  error : Option String := Option.none
  event_type : EventType := EventType.fragment
deriving DecidableEq

/-- `__post_init__`'s assertion: `content` must be a list, string, or dict. -/
def contentOk : Content → Bool
  | .other => false
  | _ => true

/-- Python `a or b` on an optional merge value (enum members are always
truthy, `None` is falsy), as in `fragment.get('merge') or self.merge`. -/
def pyOrMerge (item deflt : Option MergeType) : Option MergeType :=
  match item with
  | some m => some m
  | Option.none => deflt

/-- Python `a or b` on an optional string (the empty string is falsy), as in
`fragment.get('selector') or self.selector`. -/
def pyOrStr (item deflt : Option String) : Option String :=
  match item with
  | some s => if s = "" then deflt else some s
  | Option.none => deflt

/-- The `data_lines` list built by `_format_fragment_sse` from the resolved
field values: each optional entry is `None` unless its guard holds
(Python truthiness for `merge`/`selector`/`settle`/`redirect`/`error`,
`is not None` for `vt`), the mandatory fragment line is last, and `None`
entries are dropped by the join's filter. -/
def dataLines (merge : Option MergeType) (selector : Option String)
    (settle_duration : Option Int) (use_view_transitions : Option Bool)
    (redirect : Option String) (error : Option String) (frag : String) : List String :=
  List.filterMap id
    [ (match merge with
       | some m => some ("merge " ++ m.value)
       | Option.none => Option.none),
      (match selector with
       | some s => if s = "" then Option.none else some ("selector " ++ s)
       | Option.none => Option.none),
      (match settle_duration with
       | some n => if n = 0 then Option.none else some ("settle " ++ toString n)
       | Option.none => Option.none),
      (match use_view_transitions with
       | some b => some ("vt " ++ (if b then "true" else "false"))
       | Option.none => Option.none),
      (match redirect with
       | some s => if s = "" then Option.none else some ("redirect " ++ s)
       | Option.none => Option.none),
      (match error with
       | some s => if s = "" then Option.none else some ("error " ++ s)
       | Option.none => Option.none),
      some ("fragment " ++ frag) ]

/-- `'\n'.join(f"data: {line}" for line in data_lines if line is not None)`
(the `None` filter is already applied by `dataLines`). -/
def joinData (lines : List String) : String :=
  String.intercalate "\n" (lines.map fun l => "data: " ++ l)

/-- `dict.get` on a JSON mapping. -/
def lookupJson (kvs : List (String × Json)) (k : String) : Option Json :=
  List.lookup k kvs

/-- `DatastarEvent._format_fragment_sse`.  For a dict argument,
`merge`/`selector` resolve via Python `or` against the event-level fields
and `fragment['fragment']` raises `KeyError` when the key is absent; the
remaining fields come from the event only.  A plain JSON mapping behaves
as the same dict code: a truthy `merge` value that is not a `MergeType`
raises `AttributeError` when the f-string takes `.value`, a truthy
`selector` value is rendered with `str()`, and the fragment value is
rendered with `str()`. -/
def formatFragmentSse (e : DatastarEvent) (a : Atom) : Except PyErr String :=
  match a with
  | .str s =>
      .ok (joinData (dataLines e.merge e.selector e.settle_duration
        e.use_view_transitions e.redirect e.error s))
  | .cfg c =>
      match c.fragment with
      | Option.none => .error .keyError
      | some frag =>
          .ok (joinData (dataLines (pyOrMerge c.merge e.merge) (pyOrStr c.selector e.selector)
            e.settle_duration e.use_view_transitions e.redirect e.error frag))
  | .json kvs =>
      match lookupJson kvs "fragment" with
      | Option.none => .error .keyError
      | some fj =>
          match (lookupJson kvs "merge").filter Json.truthy with
          | some _ => .error .attributeError
          | Option.none =>
              let sel : Option String :=
                match (lookupJson kvs "selector").filter Json.truthy with
                | some j => some (pyStr j)
                | Option.none => e.selector
              .ok (joinData (dataLines e.merge sel e.settle_duration
                e.use_view_transitions e.redirect e.error (pyStr fj)))

/-- The entries of a `FragmentConfig` dict in field order, as seen by
`json.dumps` when such a dict is signal-encoded (`MergeType` members are
`str` subclasses and serialize as their token). -/
def configEntries (c : FragmentConfig) : List (String × Json) :=
  (match c.fragment with | some s => [("fragment", Json.str s)] | Option.none => []) ++
  (match c.merge with | some m => [("merge", Json.str m.value)] | Option.none => []) ++
  (match c.selector with | some s => [("selector", Json.str s)] | Option.none => []) ++
  (match c.settle_duration with | some n => [("settle_duration", Json.int n)] | Option.none => []) ++
  (match c.use_view_transitions with | some b => [("use_view_transitions", Json.bool b)] | Option.none => []) ++
  (match c.redirect with | some s => [("redirect", Json.str s)] | Option.none => []) ++
  (match c.error with | some s => [("error", Json.str s)] | Option.none => [])

/-- `DatastarEvent._format_signal_sse`: `json.dumps` for a dict, `str()`
verbatim otherwise; a single data line. -/
def formatSignalSse (a : Atom) : String :=
  match a with
  | .str s => "data: " ++ s
  | .cfg c => "data: " ++ dumpsDict (configEntries c)
  | .json kvs => "data: " ++ dumpsDict kvs

/-- `DatastarEvent.format_sse`: dispatch on `event_type`, then wrap in the
`event:` header and the blank-line terminator. -/
def formatSse (e : DatastarEvent) (a : Atom) : Except PyErr String :=
  if e.event_type = EventType.fragment then
    match formatFragmentSse e a with
    | .error er => .error er
    | .ok data => .ok ("event: " ++ e.event_type.value ++ "\n" ++ data ++ "\n\n")
  else
    .ok ("event: " ++ e.event_type.value ++ "\n" ++ formatSignalSse a ++ "\n\n")

/-- The blocks produced while iterating over a list content: each item's
block is yielded in order until some item raises, in which case the
blocks already yielded stand and the error propagates. -/
def emitAtoms (e : DatastarEvent) : List Atom → List String × Option PyErr
  | [] => ([], Option.none)
  | a :: rest =>
      match formatSse e a with
      | .error er => ([], some er)
      | .ok b => (b :: (emitAtoms e rest).1, (emitAtoms e rest).2)

/-- `DatastarEvent.__aiter__` / `stream`: one block for a string or dict
content, one block per item for a list content, `TypeError` for any other
content (iterating a non-iterable). -/
def streamBlocks (e : DatastarEvent) : List String × Option PyErr :=
  match e.content with
  | .atom a =>
      match formatSse e a with
      | .ok b => ([b], Option.none)
      | .error er => ([], some er)
  | .items l => emitAtoms e l
  | .other => ([], some .typeError)

/-- The outcome of one `await anext(generator)` on the injected source, as
seen by the loop: a payload, a raised exception (anything other than
`StopAsyncIteration`), or exhaustion (`StopAsyncIteration`). -/
inductive PullResult
  | yields (c : Content)
  | raises
  | exhausted
deriving DecidableEq

/-- The environment of one `DatastarStreamer.stream` run: the per-tick value
of `condition_callable`, the per-tick event-loop clock reading, the
configured `interval`, and the source as a sequence of pull results
indexed by how many pulls have been made. -/
structure StreamerParams where
  gate : Nat → Bool
  timeAt : Nat → Int
  interval : Int
  source : Nat → PullResult

/-- The mutable state of the `while True` loop in `DatastarStreamer.stream`:
pulls made so far, `last_yield_time` (initially `0`), and whether the
loop has broken out. -/
structure LoopState where
  pulls : Nat
  lastYield : Int
  stopped : Bool
deriving DecidableEq

/-- What one loop iteration did: the SSE blocks it yielded downstream,
whether it reached the `asyncio.sleep`, whether it completed an emission
(and so recorded `last_yield_time`), whether it caught an exception, and
whether it broke out of the loop (or was already out). -/
structure TickResult where
  blocks : List String
  slept : Bool
  success : Bool
  caught : Bool
  halted : Bool
deriving DecidableEq

/-- The event the streamer builds for a pulled payload:
`DatastarEvent(content=fragment)`, every other field left at its default. -/
def mkStreamerEvent (c : Content) : DatastarEvent := { content := c }

/-- One iteration of `DatastarStreamer.stream`.  If the elapsed-time guard
and the gate pass, the next payload is pulled: exhaustion breaks the loop
(before the sleep); a pull failure, a failed content assertion, or an
encoding failure is caught (skipping the sleep); otherwise all blocks are
yielded and `last_yield_time` is set to this tick's clock reading.  When
the guard fails, the iteration just sleeps. -/
def tick (p : StreamerParams) (k : Nat) (s : LoopState) : LoopState × TickResult :=
  if s.stopped then
    (s, ⟨[], false, false, false, true⟩)
  else
    let t := p.timeAt k
    if p.interval ≤ t - s.lastYield ∧ p.gate k = true then
      match p.source s.pulls with
      | .exhausted =>
          ({ s with pulls := s.pulls + 1, stopped := true }, ⟨[], false, false, false, true⟩)
      | .raises =>
          ({ s with pulls := s.pulls + 1 }, ⟨[], false, false, true, false⟩)
      | .yields c =>
          if contentOk c then
            let out := streamBlocks (mkStreamerEvent c)
            match out.2 with
            | some _ =>
                ({ s with pulls := s.pulls + 1 }, ⟨out.1, false, false, true, false⟩)
            | Option.none =>
                ({ s with pulls := s.pulls + 1, lastYield := t }, ⟨out.1, true, true, false, false⟩)
          else
            ({ s with pulls := s.pulls + 1 }, ⟨[], false, false, true, false⟩)
    else
      (s, ⟨[], true, false, false, false⟩)

/-- The loop state before tick `k` (`states p 0` is the initial state). -/
def states (p : StreamerParams) : Nat → LoopState
  | 0 => ⟨0, 0, false⟩
  | k + 1 => (tick p k (states p k)).1

/-- The result of tick `k` of a run. -/
def tickRes (p : StreamerParams) (k : Nat) : TickResult :=
  (tick p k (states p k)).2

/-- An item of the sequence produced by `create_sse_stream`: an SSE data
chunk or the `await asyncio.sleep(interval)` suspension. -/
inductive StreamItem
  | data (s : String)
  | sleep
deriving DecidableEq

/-- The event `create_sse_stream` builds for a payload: the fixed defaults
cover `merge`, `selector`, `settle_duration`, `use_view_transitions`, and
`event_type` (`redirect`/`error` have no parameter and stay `None`). -/
def mkFactoryEvent (merge : Option MergeType) (selector : Option String)
    (settle_duration : Option Int) (use_view_transitions : Option Bool)
    (event_type : EventType) (c : Content) : DatastarEvent :=
  { content := c, merge := merge, selector := selector,
    settle_duration := settle_duration, use_view_transitions := use_view_transitions,
    event_type := event_type }

/-- `create_sse_stream`'s inner generator over a finite source, as the
sequence of data chunks and sleeps it produces.  Each payload is wrapped
in one event and its blocks are emitted in order followed by one sleep;
a construction or encoding failure ends the sequence with that error
(blocks already yielded stand, no sleep); exhaustion of the source ends
the sequence cleanly. -/
def createSseStream (merge : Option MergeType) (selector : Option String)
    (settle_duration : Option Int) (use_view_transitions : Option Bool)
    (event_type : EventType) : List Content → List StreamItem × Option PyErr
  | [] => ([], Option.none)
  | c :: rest =>
      if contentOk c then
        match (streamBlocks (mkFactoryEvent merge selector settle_duration
            use_view_transitions event_type c)).2 with
        | some er =>
            ((streamBlocks (mkFactoryEvent merge selector settle_duration
              use_view_transitions event_type c)).1.map .data, some er)
        | Option.none =>
            ((streamBlocks (mkFactoryEvent merge selector settle_duration
                use_view_transitions event_type c)).1.map .data ++
              StreamItem.sleep ::
                (createSseStream merge selector settle_duration
                  use_view_transitions event_type rest).1,
              (createSseStream merge selector settle_duration
                use_view_transitions event_type rest).2)
      else
        ([], some .assertionError)

/-! Helper lemmas about the data-line strings. -/

/-- Strings with different three-character prefixes stay different under any
right extension.  The seven data-line tags all differ within their first
three characters. -/
theorem take3_ne_append (a b x y : String) (h : a.data.take 3 ≠ b.data.take 3)
    (ha : 3 ≤ a.data.length) (hb : 3 ≤ b.data.length) : a ++ x ≠ b ++ y := by
  intro hxy
  apply h
  have hd := congrArg String.data hxy
  rw [String.data_append, String.data_append] at hd
  calc a.data.take 3 = (a.data ++ x.data).take 3 :=
        (List.take_append_of_le_length ha).symm
    _ = (b.data ++ y.data).take 3 := by rw [hd]
    _ = b.data.take 3 := List.take_append_of_le_length hb

/-- The optional line built for the merge field. -/
def mergeLines (me : Option MergeType) : List String :=
  match me with
  | some m => ["merge " ++ m.value]
  | Option.none => []

/-- The optional line built for the selector field. -/
def selectorLines (se : Option String) : List String :=
  match se with
  | some s => if s = "" then [] else ["selector " ++ s]
  | Option.none => []

/-- The optional line built for the settle-duration field. -/
def settleLines (sd : Option Int) : List String :=
  match sd with
  | some n => if n = 0 then [] else ["settle " ++ toString n]
  | Option.none => []

/-- The optional line built for the view-transitions field. -/
def vtLines (vt : Option Bool) : List String :=
  match vt with
  | some b => ["vt " ++ (if b then "true" else "false")]
  | Option.none => []

/-- The optional line built for the redirect field. -/
def redirectLines (rd : Option String) : List String :=
  match rd with
  | some s => if s = "" then [] else ["redirect " ++ s]
  | Option.none => []

/-- The optional line built for the error field. -/
def errorLines (er : Option String) : List String :=
  match er with
  | some s => if s = "" then [] else ["error " ++ s]
  | Option.none => []

theorem filterMap_id_cons (o : Option String) (L : List (Option String)) :
    List.filterMap id (o :: L) = o.toList ++ List.filterMap id L := by
  cases o <;> simp

/-- Normal form of the `data_lines` list: the present optional lines in
their fixed order, then the mandatory fragment line. -/
theorem dataLines_eq (me : Option MergeType) (se : Option String) (sd : Option Int)
    (vt : Option Bool) (rd er : Option String) (frag : String) :
    dataLines me se sd vt rd er frag =
      mergeLines me ++ selectorLines se ++ settleLines sd ++ vtLines vt ++
        redirectLines rd ++ errorLines er ++ ["fragment " ++ frag] := by
  simp only [dataLines, filterMap_id_cons, List.filterMap_nil, List.append_nil,
    List.append_assoc]
  congr 1
  · cases me <;> rfl
  congr 1
  · cases se with
    | none => rfl
    | some s => by_cases hs : s = "" <;> simp [selectorLines, hs]
  congr 1
  · cases sd with
    | none => rfl
    | some n => by_cases hn : n = 0 <;> simp [settleLines, hn]
  congr 1
  · cases vt <;> rfl
  congr 1
  · cases rd with
    | none => rfl
    | some s => by_cases hs : s = "" <;> simp [redirectLines, hs]
  congr 1
  · cases er with
    | none => rfl
    | some s => by_cases hs : s = "" <;> simp [errorLines, hs]

/-- Elements of a tagged chunk never match a line with a different tag. -/
theorem tagged_not_mem {chunk : List String} {other : String}
    (hc : ∀ l ∈ chunk, ∃ v, l = other ++ v) {tag : String}
    (h : tag.data.take 3 ≠ other.data.take 3) (ha : 3 ≤ tag.data.length)
    (hb : 3 ≤ other.data.length) (x : String) : tag ++ x ∉ chunk := by
  intro hm
  obtain ⟨v, hv⟩ := hc _ hm
  exact take3_ne_append tag other x v h ha hb hv

theorem mergeLines_tagged (me : Option MergeType) :
    ∀ l ∈ mergeLines me, ∃ v, l = "merge " ++ v := by
  cases me with
  | none => simp [mergeLines]
  | some m => intro l hl; simp only [mergeLines, List.mem_singleton] at hl; exact ⟨m.value, hl⟩

theorem selectorLines_tagged (se : Option String) :
    ∀ l ∈ selectorLines se, ∃ v, l = "selector " ++ v := by
  cases se with
  | none => simp [selectorLines]
  | some s =>
      intro l hl
      by_cases hs : s = "" <;> simp only [selectorLines, hs, if_pos, if_neg,
        List.mem_singleton, List.not_mem_nil, ite_true, ite_false] at hl
      exact ⟨s, hl⟩

theorem settleLines_tagged (sd : Option Int) :
    ∀ l ∈ settleLines sd, ∃ v, l = "settle " ++ v := by
  cases sd with
  | none => simp [settleLines]
  | some n =>
      intro l hl
      by_cases hn : n = 0 <;> simp only [settleLines, hn, List.mem_singleton,
        List.not_mem_nil, ite_true, ite_false] at hl
      exact ⟨toString n, hl⟩

theorem vtLines_tagged (vt : Option Bool) :
    ∀ l ∈ vtLines vt, ∃ v, l = "vt " ++ v := by
  cases vt with
  | none => simp [vtLines]
  | some b => intro l hl; simp only [vtLines, List.mem_singleton] at hl
              exact ⟨if b then "true" else "false", hl⟩

theorem redirectLines_tagged (rd : Option String) :
    ∀ l ∈ redirectLines rd, ∃ v, l = "redirect " ++ v := by
  cases rd with
  | none => simp [redirectLines]
  | some s =>
      intro l hl
      by_cases hs : s = "" <;> simp only [redirectLines, hs, List.mem_singleton,
        List.not_mem_nil, ite_true, ite_false] at hl
      exact ⟨s, hl⟩

theorem errorLines_tagged (er : Option String) :
    ∀ l ∈ errorLines er, ∃ v, l = "error " ++ v := by
  cases er with
  | none => simp [errorLines]
  | some s =>
      intro l hl
      by_cases hs : s = "" <;> simp only [errorLines, hs, List.mem_singleton,
        List.not_mem_nil, ite_true, ite_false] at hl
      exact ⟨s, hl⟩

theorem merge_line_mem (me : Option MergeType) (se : Option String) (sd : Option Int)
    (vt : Option Bool) (rd er : Option String) (frag : String) :
    (∃ x, "merge " ++ x ∈ dataLines me se sd vt rd er frag) ↔ me ≠ Option.none := by
  rw [dataLines_eq]
  constructor
  · rintro ⟨x, hx⟩
    simp only [List.mem_append, List.mem_singleton] at hx
    rcases hx with ((((((h | h) | h) | h) | h) | h) | h)
    · cases me with
      | none => simp [mergeLines] at h
      | some m => simp
    · exact absurd h (tagged_not_mem (selectorLines_tagged se) (by decide) (by decide) (by decide) x)
    · exact absurd h (tagged_not_mem (settleLines_tagged sd) (by decide) (by decide) (by decide) x)
    · exact absurd h (tagged_not_mem (vtLines_tagged vt) (by decide) (by decide) (by decide) x)
    · exact absurd h (tagged_not_mem (redirectLines_tagged rd) (by decide) (by decide) (by decide) x)
    · exact absurd h (tagged_not_mem (errorLines_tagged er) (by decide) (by decide) (by decide) x)
    · exact absurd h (take3_ne_append "merge " "fragment " x frag (by decide) (by decide) (by decide))
  · intro hme
    obtain ⟨m, rfl⟩ := Option.ne_none_iff_exists'.mp hme
    exact ⟨m.value, by simp [mergeLines]⟩

theorem selector_line_mem (me : Option MergeType) (se : Option String) (sd : Option Int)
    (vt : Option Bool) (rd er : Option String) (frag : String) :
    (∃ x, "selector " ++ x ∈ dataLines me se sd vt rd er frag) ↔
      ∃ s, se = some s ∧ s ≠ "" := by
  rw [dataLines_eq]
  constructor
  · rintro ⟨x, hx⟩
    simp only [List.mem_append, List.mem_singleton] at hx
    rcases hx with ((((((h | h) | h) | h) | h) | h) | h)
    · exact absurd h (tagged_not_mem (mergeLines_tagged me) (by decide) (by decide) (by decide) x)
    · cases se with
      | none => simp [selectorLines] at h
      | some s =>
          by_cases hs : s = ""
          · simp [selectorLines, hs] at h
          · exact ⟨s, rfl, hs⟩
    · exact absurd h (tagged_not_mem (settleLines_tagged sd) (by decide) (by decide) (by decide) x)
    · exact absurd h (tagged_not_mem (vtLines_tagged vt) (by decide) (by decide) (by decide) x)
    · exact absurd h (tagged_not_mem (redirectLines_tagged rd) (by decide) (by decide) (by decide) x)
    · exact absurd h (tagged_not_mem (errorLines_tagged er) (by decide) (by decide) (by decide) x)
    · exact absurd h (take3_ne_append "selector " "fragment " x frag (by decide) (by decide) (by decide))
  · rintro ⟨s, rfl, hs⟩
    exact ⟨s, by simp [selectorLines, hs]⟩

theorem settle_line_mem (me : Option MergeType) (se : Option String) (sd : Option Int)
    (vt : Option Bool) (rd er : Option String) (frag : String) :
    (∃ x, "settle " ++ x ∈ dataLines me se sd vt rd er frag) ↔
      ∃ n, sd = some n ∧ n ≠ 0 := by
  rw [dataLines_eq]
  constructor
  · rintro ⟨x, hx⟩
    simp only [List.mem_append, List.mem_singleton] at hx
    rcases hx with ((((((h | h) | h) | h) | h) | h) | h)
    · exact absurd h (tagged_not_mem (mergeLines_tagged me) (by decide) (by decide) (by decide) x)
    · exact absurd h (tagged_not_mem (selectorLines_tagged se) (by decide) (by decide) (by decide) x)
    · cases sd with
      | none => simp [settleLines] at h
      | some n =>
          by_cases hn : n = 0
          · simp [settleLines, hn] at h
          · exact ⟨n, rfl, hn⟩
    · exact absurd h (tagged_not_mem (vtLines_tagged vt) (by decide) (by decide) (by decide) x)
    · exact absurd h (tagged_not_mem (redirectLines_tagged rd) (by decide) (by decide) (by decide) x)
    · exact absurd h (tagged_not_mem (errorLines_tagged er) (by decide) (by decide) (by decide) x)
    · exact absurd h (take3_ne_append "settle " "fragment " x frag (by decide) (by decide) (by decide))
  · rintro ⟨n, rfl, hn⟩
    exact ⟨toString n, by simp [settleLines, hn]⟩

theorem vt_line_mem (me : Option MergeType) (se : Option String) (sd : Option Int)
    (vt : Option Bool) (rd er : Option String) (frag : String) :
    (∃ x, "vt " ++ x ∈ dataLines me se sd vt rd er frag) ↔ vt ≠ Option.none := by
  rw [dataLines_eq]
  constructor
  · rintro ⟨x, hx⟩
    simp only [List.mem_append, List.mem_singleton] at hx
    rcases hx with ((((((h | h) | h) | h) | h) | h) | h)
    · exact absurd h (tagged_not_mem (mergeLines_tagged me) (by decide) (by decide) (by decide) x)
    · exact absurd h (tagged_not_mem (selectorLines_tagged se) (by decide) (by decide) (by decide) x)
    · exact absurd h (tagged_not_mem (settleLines_tagged sd) (by decide) (by decide) (by decide) x)
    · cases vt with
      | none => simp [vtLines] at h
      | some b => simp
    · exact absurd h (tagged_not_mem (redirectLines_tagged rd) (by decide) (by decide) (by decide) x)
    · exact absurd h (tagged_not_mem (errorLines_tagged er) (by decide) (by decide) (by decide) x)
    · exact absurd h (take3_ne_append "vt " "fragment " x frag (by decide) (by decide) (by decide))
  · intro hvt
    obtain ⟨b, rfl⟩ := Option.ne_none_iff_exists'.mp hvt
    exact ⟨if b then "true" else "false", by simp [vtLines]⟩

theorem vt_false_line_mem (me : Option MergeType) (se : Option String) (sd : Option Int)
    (vt : Option Bool) (rd er : Option String) (frag : String) :
    "vt false" ∈ dataLines me se sd vt rd er frag ↔ vt = some false := by
  rw [dataLines_eq]
  constructor
  · intro hx
    simp only [List.mem_append, List.mem_singleton] at hx
    have hsplit : ("vt false" : String) = "vt " ++ "false" := rfl
    rcases hx with ((((((h | h) | h) | h) | h) | h) | h)
    · exact absurd (hsplit ▸ h)
        (tagged_not_mem (mergeLines_tagged me) (by decide) (by decide) (by decide) "false")
    · exact absurd (hsplit ▸ h)
        (tagged_not_mem (selectorLines_tagged se) (by decide) (by decide) (by decide) "false")
    · exact absurd (hsplit ▸ h)
        (tagged_not_mem (settleLines_tagged sd) (by decide) (by decide) (by decide) "false")
    · cases vt with
      | none => simp [vtLines] at h
      | some b =>
          cases b with
          | true => simp only [vtLines, List.mem_singleton] at h; exact absurd h (by decide)
          | false => rfl
    · exact absurd (hsplit ▸ h)
        (tagged_not_mem (redirectLines_tagged rd) (by decide) (by decide) (by decide) "false")
    · exact absurd (hsplit ▸ h)
        (tagged_not_mem (errorLines_tagged er) (by decide) (by decide) (by decide) "false")
    · rw [hsplit] at h
      exact absurd h (take3_ne_append "vt " "fragment " "false" frag (by decide) (by decide) (by decide))
  · rintro rfl
    simp [vtLines]

theorem redirect_line_mem (me : Option MergeType) (se : Option String) (sd : Option Int)
    (vt : Option Bool) (rd er : Option String) (frag : String) :
    (∃ x, "redirect " ++ x ∈ dataLines me se sd vt rd er frag) ↔
      ∃ s, rd = some s ∧ s ≠ "" := by
  rw [dataLines_eq]
  constructor
  · rintro ⟨x, hx⟩
    simp only [List.mem_append, List.mem_singleton] at hx
    rcases hx with ((((((h | h) | h) | h) | h) | h) | h)
    · exact absurd h (tagged_not_mem (mergeLines_tagged me) (by decide) (by decide) (by decide) x)
    · exact absurd h (tagged_not_mem (selectorLines_tagged se) (by decide) (by decide) (by decide) x)
    · exact absurd h (tagged_not_mem (settleLines_tagged sd) (by decide) (by decide) (by decide) x)
    · exact absurd h (tagged_not_mem (vtLines_tagged vt) (by decide) (by decide) (by decide) x)
    · cases rd with
      | none => simp [redirectLines] at h
      | some s =>
          by_cases hs : s = ""
          · simp [redirectLines, hs] at h
          · exact ⟨s, rfl, hs⟩
    · exact absurd h (tagged_not_mem (errorLines_tagged er) (by decide) (by decide) (by decide) x)
    · exact absurd h (take3_ne_append "redirect " "fragment " x frag (by decide) (by decide) (by decide))
  · rintro ⟨s, rfl, hs⟩
    exact ⟨s, by simp [redirectLines, hs]⟩

theorem error_line_mem (me : Option MergeType) (se : Option String) (sd : Option Int)
    (vt : Option Bool) (rd er : Option String) (frag : String) :
    (∃ x, "error " ++ x ∈ dataLines me se sd vt rd er frag) ↔
      ∃ s, er = some s ∧ s ≠ "" := by
  rw [dataLines_eq]
  constructor
  · rintro ⟨x, hx⟩
    simp only [List.mem_append, List.mem_singleton] at hx
    rcases hx with ((((((h | h) | h) | h) | h) | h) | h)
    · exact absurd h (tagged_not_mem (mergeLines_tagged me) (by decide) (by decide) (by decide) x)
    · exact absurd h (tagged_not_mem (selectorLines_tagged se) (by decide) (by decide) (by decide) x)
    · exact absurd h (tagged_not_mem (settleLines_tagged sd) (by decide) (by decide) (by decide) x)
    · exact absurd h (tagged_not_mem (vtLines_tagged vt) (by decide) (by decide) (by decide) x)
    · exact absurd h (tagged_not_mem (redirectLines_tagged rd) (by decide) (by decide) (by decide) x)
    · cases er with
      | none => simp [errorLines] at h
      | some s =>
          by_cases hs : s = ""
          · simp [errorLines, hs] at h
          · exact ⟨s, rfl, hs⟩
    · exact absurd h (take3_ne_append "error " "fragment " x frag (by decide) (by decide) (by decide))
  · rintro ⟨s, rfl, hs⟩
    exact ⟨s, by simp [errorLines, hs]⟩

theorem fragment_line_always_mem (me : Option MergeType) (se : Option String) (sd : Option Int)
    (vt : Option Bool) (rd er : Option String) (frag : String) :
    "fragment " ++ frag ∈ dataLines me se sd vt rd er frag := by
  rw [dataLines_eq]
  simp

/-! Helper lemmas about one iteration of `DatastarStreamer.stream`. -/

/-- `last_yield_time` is set to the tick's clock reading exactly on a fully
successful emission and is left unchanged otherwise. -/
theorem tick_lastYield (p : StreamerParams) (k : Nat) (s : LoopState) :
    ((tick p k s).1).lastYield =
      if (tick p k s).2.success = true then p.timeAt k else s.lastYield := by
  unfold tick
  by_cases h1 : s.stopped = true
  · simp [h1]
  · simp only [h1, if_false]
    by_cases h2 : p.interval ≤ p.timeAt k - s.lastYield ∧ p.gate k = true
    · simp only [h2, if_true]
      cases hsrc : p.source s.pulls with
      | exhausted => simp
      | raises => simp
      | yields c =>
          by_cases h3 : contentOk c = true
          · simp only [h3, if_true]
            cases hout : (streamBlocks (mkStreamerEvent c)).2 <;> simp
          · simp [h3]
    · simp [h2]

/-- A successful emission can only happen when the configured interval has
elapsed since `last_yield_time`. -/
theorem tick_success_elapsed (p : StreamerParams) (k : Nat) (s : LoopState)
    (h : (tick p k s).2.success = true) : p.interval ≤ p.timeAt k - s.lastYield := by
  unfold tick at h
  by_cases h1 : s.stopped = true
  · simp [h1] at h
  · simp only [h1, if_false] at h
    by_cases h2 : p.interval ≤ p.timeAt k - s.lastYield ∧ p.gate k = true
    · exact h2.1
    · simp [h2] at h

/-- An iteration reaches the `asyncio.sleep` exactly when it neither broke
out of the loop nor caught an exception. -/
theorem tick_sleep_iff (p : StreamerParams) (k : Nat) (s : LoopState) :
    (tick p k s).2.slept = true ↔
      ((tick p k s).2.halted = false ∧ (tick p k s).2.caught = false) := by
  unfold tick
  by_cases h1 : s.stopped = true
  · simp [h1]
  · simp only [h1, if_false]
    by_cases h2 : p.interval ≤ p.timeAt k - s.lastYield ∧ p.gate k = true
    · simp only [h2, if_true]
      cases hsrc : p.source s.pulls with
      | exhausted => simp
      | raises => simp
      | yields c =>
          by_cases h3 : contentOk c = true
          · simp only [h3, if_true]
            cases hout : (streamBlocks (mkStreamerEvent c)).2 <;> simp
          · simp [h3]
    · simp [h2]

/-- Between a successful emission at tick `i` and the next success,
`last_yield_time` stays frozen at `timeAt i`. -/
theorem lastYield_frozen (p : StreamerParams) (i d : Nat)
    (hi : (tickRes p i).success = true)
    (hmid : ∀ m, i < m → m < i + 1 + d → (tickRes p m).success = false) :
    (states p (i + 1 + d)).lastYield = p.timeAt i := by
  induction d with
  | zero =>
      show (states p (i + 1)).lastYield = p.timeAt i
      have hstep : states p (i + 1) = (tick p i (states p i)).1 := rfl
      rw [hstep, tick_lastYield, if_pos]
      exact hi
  | succ d ih =>
      have hd : (tickRes p (i + 1 + d)).success = false := hmid _ (by omega) (by omega)
      have hstep : states p (i + 1 + (d + 1)) = (tick p (i + 1 + d) (states p (i + 1 + d))).1 := by
        have he : i + 1 + (d + 1) = (i + 1 + d) + 1 := by omega
        rw [he]
        rfl
      rw [hstep, tick_lastYield, if_neg]
      · exact ih (fun m hm1 hm2 => hmid m hm1 (by omega))
      · simp only [tickRes] at hd
        simp [hd]

/-! Helper lemmas describing the shape of blocks emitted by the streamer. -/

/-- Every block of a fragment-kind streamer event is a fragment block whose
data lines are built with the four event-only fields left at `None`. -/
theorem formatSse_streamer_shape (c : Content) (a : Atom) (b : String)
    (h : formatSse (mkStreamerEvent c) a = .ok b) :
    ∃ me se fr, b = "event: datastar-fragment\n" ++
      (joinData (dataLines me se Option.none Option.none Option.none Option.none fr) ++ "\n\n") := by
  cases a with
  | str s =>
      refine ⟨Option.none, Option.none, s, ?_⟩
      simp only [formatSse, formatFragmentSse, mkStreamerEvent, if_true] at h
      injection h with h
      exact h.symm.trans rfl
  | cfg cc =>
      obtain ⟨cf, cm, cs, csd, cvt, crd, cer⟩ := cc
      cases cf with
      | none =>
          simp only [formatSse, formatFragmentSse, mkStreamerEvent, if_true] at h
          exact Except.noConfusion h
      | some fr =>
          refine ⟨pyOrMerge cm Option.none, pyOrStr cs Option.none, fr, ?_⟩
          simp only [formatSse, formatFragmentSse, mkStreamerEvent, if_true] at h
          injection h with h
          exact h.symm.trans rfl
  | json kvs =>
      simp only [formatSse, formatFragmentSse, mkStreamerEvent, if_true] at h
      rcases hfo : lookupJson kvs "fragment" with _ | fj <;> rw [hfo] at h
      · simp at h
      · rcases hmo : (lookupJson kvs "merge").filter Json.truthy with _ | j <;> rw [hmo] at h
        · simp only [] at h
          refine ⟨Option.none, ?_, pyStr fj, ?_⟩
          · exact match (lookupJson kvs "selector").filter Json.truthy with
              | some j => some (pyStr j)
              | Option.none => Option.none
          · injection h with h
            exact h.symm.trans rfl
        · simp at h

/-- Every block yielded while iterating a list content comes from
`format_sse` on some item. -/
theorem mem_emitAtoms (e : DatastarEvent) (l : List Atom) (b : String)
    (hb : b ∈ (emitAtoms e l).1) : ∃ a, formatSse e a = .ok b := by
  induction l with
  | nil => simp [emitAtoms] at hb
  | cons a rest ih =>
      unfold emitAtoms at hb
      cases hf : formatSse e a with
      | error er => rw [hf] at hb; simp at hb
      | ok blk =>
          rw [hf] at hb
          rcases List.mem_cons.mp hb with h | h
          · exact ⟨a, by rw [hf, h]⟩
          · exact ih h

/-- Every block yielded by `DatastarEvent.stream` comes from `format_sse`
on some single value. -/
theorem mem_streamBlocks (e : DatastarEvent) (b : String)
    (hb : b ∈ (streamBlocks e).1) : ∃ a, formatSse e a = .ok b := by
  obtain ⟨c, me, se, sd, vt, rd, er, et⟩ := e
  cases c with
  | atom a =>
      cases hf : formatSse ⟨Content.atom a, me, se, sd, vt, rd, er, et⟩ a with
      | error er2 => simp [streamBlocks, hf] at hb
      | ok blk =>
          simp only [streamBlocks, hf, List.mem_singleton] at hb
          exact ⟨a, by rw [hf, hb]⟩
  | items l =>
      simp only [streamBlocks] at hb
      exact mem_emitAtoms _ l b hb
  | other => simp [streamBlocks] at hb

/-- Every block yielded by a streamer tick comes from the stream of a
`DatastarEvent(content=payload)` event. -/
theorem tick_blocks_from_event (p : StreamerParams) (k : Nat) (s : LoopState) (b : String)
    (hb : b ∈ (tick p k s).2.blocks) :
    ∃ c, b ∈ (streamBlocks (mkStreamerEvent c)).1 := by
  unfold tick at hb
  by_cases h1 : s.stopped = true
  · simp [h1] at hb
  · simp only [h1, if_false] at hb
    by_cases h2 : p.interval ≤ p.timeAt k - s.lastYield ∧ p.gate k = true
    · simp only [h2, if_true] at hb
      cases hsrc : p.source s.pulls with
      | exhausted => rw [hsrc] at hb; simp at hb
      | raises => rw [hsrc] at hb; simp at hb
      | yields c =>
          rw [hsrc] at hb
          by_cases h3 : contentOk c = true
          · simp only [h3, if_true] at hb
            cases hout : (streamBlocks (mkStreamerEvent c)).2 <;> rw [hout] at hb <;>
              exact ⟨c, hb⟩
          · simp [h3] at hb
    · simp [h2] at hb

/-- Data lines built with `settle`/`vt`/`redirect`/`error` all absent never
contain a line with one of those four tags. -/
theorem dataLines_streamer_clean (me : Option MergeType) (se : Option String) (fr : String) :
    ∀ l ∈ dataLines me se Option.none Option.none Option.none Option.none fr,
      (∀ x, l ≠ "settle " ++ x) ∧ (∀ x, l ≠ "vt " ++ x) ∧
      (∀ x, l ≠ "redirect " ++ x) ∧ (∀ x, l ≠ "error " ++ x) := by
  intro l hl
  rw [dataLines_eq] at hl
  simp only [List.mem_append, List.mem_singleton] at hl
  rcases hl with ((((((h | h) | h) | h) | h) | h) | h)
  · obtain ⟨v, rfl⟩ := mergeLines_tagged me l h
    exact ⟨fun x => take3_ne_append "merge " "settle " v x (by decide) (by decide) (by decide),
      fun x => take3_ne_append "merge " "vt " v x (by decide) (by decide) (by decide),
      fun x => take3_ne_append "merge " "redirect " v x (by decide) (by decide) (by decide),
      fun x => take3_ne_append "merge " "error " v x (by decide) (by decide) (by decide)⟩
  · obtain ⟨v, rfl⟩ := selectorLines_tagged se l h
    exact ⟨fun x => take3_ne_append "selector " "settle " v x (by decide) (by decide) (by decide),
      fun x => take3_ne_append "selector " "vt " v x (by decide) (by decide) (by decide),
      fun x => take3_ne_append "selector " "redirect " v x (by decide) (by decide) (by decide),
      fun x => take3_ne_append "selector " "error " v x (by decide) (by decide) (by decide)⟩
  · simp [settleLines] at h
  · simp [vtLines] at h
  · simp [redirectLines] at h
  · simp [errorLines] at h
  · subst h
    exact ⟨fun x => take3_ne_append "fragment " "settle " fr x (by decide) (by decide) (by decide),
      fun x => take3_ne_append "fragment " "vt " fr x (by decide) (by decide) (by decide),
      fun x => take3_ne_append "fragment " "redirect " fr x (by decide) (by decide) (by decide),
      fun x => take3_ne_append "fragment " "error " fr x (by decide) (by decide) (by decide)⟩

/-! Claim theorems. -/

/-- C1 counterexample: with both a merge and a selector present, the encoder
puts the merge line first, so the selector line does not precede the merge
line as the claim requires. -/
theorem selector_before_merge_false :
    dataLines (some MergeType.inner) (some "#x") Option.none Option.none
        Option.none Option.none "hi" =
      ["merge inner_element", "selector #x", "fragment hi"] ∧
    ¬ (dataLines (some MergeType.inner) (some "#x") Option.none Option.none
          Option.none Option.none "hi").indexOf "selector #x" <
        (dataLines (some MergeType.inner) (some "#x") Option.none Option.none
          Option.none Option.none "hi").indexOf "merge inner_element" := by
  decide

/-- C1 (amended): the data lines of an encoded fragment block appear in the
order merge, selector, settle, vt, redirect, error, with the mandatory
fragment line last. -/
theorem fragment_data_line_order (me : Option MergeType) (se : Option String)
    (sd : Option Int) (vt : Option Bool) (rd er : Option String) (frag : String) :
    dataLines me se sd vt rd er frag =
      mergeLines me ++ selectorLines se ++ settleLines sd ++ vtLines vt ++
        redirectLines rd ++ errorLines er ++ ["fragment " ++ frag] ∧
    (dataLines me se sd vt rd er frag).getLast? = some ("fragment " ++ frag) := by
  refine ⟨dataLines_eq me se sd vt rd er frag, ?_⟩
  rw [dataLines_eq]
  exact List.getLast?_concat _

/-- C2 counterexample: `settle_duration = 0` is a set value, yet no settle
line is emitted (Python truthiness drops it). -/
theorem settle_zero_line_absent :
    (some (0 : Int)).isSome = true ∧
    ∀ x, "settle " ++ x ∉
      dataLines Option.none Option.none (some 0) Option.none Option.none Option.none "x" := by
  refine ⟨rfl, ?_⟩
  intro x hx
  obtain ⟨n, hn, hne⟩ :=
    (settle_line_mem Option.none Option.none (some 0) Option.none Option.none
      Option.none "x").mp ⟨x, hx⟩
  injection hn with hn
  exact hne hn.symm

/-- C2 (amended): an optional field's data line is present iff its effective
value is truthy — any set merge value, a set non-empty selector, a set
non-zero settle duration, a set redirect/error that is non-empty — while
the vt line is present iff `use_view_transitions` is set at all (so
`False` still renders, as `"vt false"`), and the fragment line is always
emitted, even for the empty fragment text. -/
theorem optional_line_presence (me : Option MergeType) (se : Option String)
    (sd : Option Int) (vt : Option Bool) (rd er : Option String) (frag : String) :
    ((∃ x, "merge " ++ x ∈ dataLines me se sd vt rd er frag) ↔ me ≠ Option.none) ∧
    ((∃ x, "selector " ++ x ∈ dataLines me se sd vt rd er frag) ↔
      ∃ s, se = some s ∧ s ≠ "") ∧
    ((∃ x, "settle " ++ x ∈ dataLines me se sd vt rd er frag) ↔
      ∃ n, sd = some n ∧ n ≠ 0) ∧
    ((∃ x, "vt " ++ x ∈ dataLines me se sd vt rd er frag) ↔ vt ≠ Option.none) ∧
    ("vt false" ∈ dataLines me se sd vt rd er frag ↔ vt = some false) ∧
    ((∃ x, "redirect " ++ x ∈ dataLines me se sd vt rd er frag) ↔
      ∃ s, rd = some s ∧ s ≠ "") ∧
    ((∃ x, "error " ++ x ∈ dataLines me se sd vt rd er frag) ↔
      ∃ s, er = some s ∧ s ≠ "") ∧
    "fragment " ++ frag ∈ dataLines me se sd vt rd er frag ∧
    streamBlocks { content := Content.atom (Atom.str "") } =
      (["event: datastar-fragment\ndata: fragment \n\n"], Option.none) :=
  ⟨merge_line_mem me se sd vt rd er frag,
   selector_line_mem me se sd vt rd er frag,
   settle_line_mem me se sd vt rd er frag,
   vt_line_mem me se sd vt rd er frag,
   vt_false_line_mem me se sd vt rd er frag,
   redirect_line_mem me se sd vt rd er frag,
   error_line_mem me se sd vt rd er frag,
   fragment_line_always_mem me se sd vt rd er frag,
   by decide⟩

/-- The item config of the C3 counterexample: its selector key is present
but holds the empty string. -/
def cC3 : FragmentConfig := { fragment := some "f", selector := some "" }

/-- The event of the C3 counterexample: its default selector is `"#a"`. -/
def eC3 : DatastarEvent := { content := Content.atom (Atom.cfg cC3), selector := some "#a" }

/-- C3 counterexample: the item-level selector is present (the empty string)
and the event default is `"#a"`, yet the encoded block uses the event
default — the present item-level value does not win. -/
theorem item_empty_selector_loses :
    cC3.selector = some "" ∧ eC3.selector = some "#a" ∧
    formatFragmentSse eC3 (.cfg cC3) = .ok "data: selector #a\ndata: fragment f" ∧
    (Except.ok "data: selector #a\ndata: fragment f" : Except PyErr String) ≠
      .ok (joinData (dataLines Option.none (some "") Option.none Option.none
        Option.none Option.none "f")) := by
  refine ⟨rfl, rfl, rfl, ?_⟩
  intro h
  injection h with h
  revert h
  decide

theorem pyOrStr_self (x : Option String) : pyOrStr x x = x := by
  cases x with
  | none => rfl
  | some t => by_cases ht : t = "" <;> simp [pyOrStr, ht]

/-- C3 (amended): per fragment item, a present item-level merge always wins
over the event default (which then has no effect), an absent item merge
falls back to the event default; a present **non-empty** item selector
wins, while an empty or absent item selector falls back to the event
default; and the `settle_duration`, `use_view_transitions`, `redirect`
and `error` fields of the item have no effect on the encoded block (those
four come only from the event level). -/
theorem field_resolution (e : DatastarEvent) (c : FragmentConfig) :
    (∀ m : MergeType, c.merge = some m → ∀ d d' : Option MergeType,
      formatFragmentSse { e with merge := d } (.cfg c) =
        formatFragmentSse { e with merge := d' } (.cfg c)) ∧
    (c.merge = Option.none →
      formatFragmentSse e (.cfg c) =
        formatFragmentSse e (.cfg { c with merge := e.merge })) ∧
    (∀ s : String, c.selector = some s → s ≠ "" → ∀ d d' : Option String,
      formatFragmentSse { e with selector := d } (.cfg c) =
        formatFragmentSse { e with selector := d' } (.cfg c)) ∧
    (c.selector = some "" ∨ c.selector = Option.none →
      formatFragmentSse e (.cfg c) =
        formatFragmentSse e (.cfg { c with selector := e.selector })) ∧
    (∀ (sd' : Option Int) (vt' : Option Bool) (rd' er' : Option String),
      formatFragmentSse e
          (.cfg { c with
                  settle_duration := sd', use_view_transitions := vt',
                  redirect := rd', error := er' }) =
        formatFragmentSse e (.cfg c)) := by
  obtain ⟨ec, em, es, esd, evt, erd, eer, eet⟩ := e
  obtain ⟨cf, cm, cs, csd, cvt, crd, cer⟩ := c
  refine ⟨?_, ?_, ?_, ?_, ?_⟩
  · intro m hm d d'
    have hm' : cm = some m := hm
    subst hm'
    cases cf <;> rfl
  · intro hm
    have hm' : cm = Option.none := hm
    subst hm'
    cases cf <;> cases em <;> rfl
  · intro s hs hne d d'
    have hs' : cs = some s := hs
    subst hs'
    cases cf with
    | none => rfl
    | some fr => simp [formatFragmentSse, pyOrStr, hne]
  · intro h
    have hs' : cs = some "" ∨ cs = Option.none := h
    rcases hs' with hs' | hs'
    · subst hs'
      cases cf with
      | none => rfl
      | some fr =>
          simp only [formatFragmentSse, pyOrStr]
          cases es with
          | none => rfl
          | some t => by_cases ht : t = "" <;> simp [ht]
    · subst hs'
      cases cf with
      | none => rfl
      | some fr =>
          simp only [formatFragmentSse, pyOrStr]
          cases es with
          | none => rfl
          | some t => by_cases ht : t = "" <;> simp [ht]
  · intro sd' vt' rd' er'
    cases cf <;> rfl

/-- Concrete event for the C3 witness. -/
def eC3w : DatastarEvent :=
  { content := Content.atom (Atom.str "x"), merge := some MergeType.outer,
    selector := some "#d" }

/-- Concrete item config for the C3 witness. -/
def cC3w : FragmentConfig :=
  { fragment := some "f", merge := some MergeType.inner, selector := some "#i" }

/-- C3 witness: at a concrete event and item, the present item merge makes
the event default irrelevant, and overriding the four event-only fields
on the item leaves the block unchanged. -/
theorem field_resolution_witness :
    formatFragmentSse { eC3w with merge := some MergeType.outer } (.cfg cC3w) =
      formatFragmentSse { eC3w with merge := Option.none } (.cfg cC3w) ∧
    formatFragmentSse eC3w
        (.cfg { cC3w with
                settle_duration := some 5, use_view_transitions := some true,
                redirect := some "/r", error := some "boom" }) =
      formatFragmentSse eC3w (.cfg cC3w) :=
  ⟨(field_resolution eC3w cC3w).1 MergeType.inner rfl (some MergeType.outer) Option.none,
   (field_resolution eC3w cC3w).2.2.2.2 (some 5) (some true) (some "/r") (some "boom")⟩

/-- C4 counterexample: a list content on a Signal event is neither a string
nor a mapping, yet it passes the construction assertion and is encoded
without any error (each element as its own signal block) — no validation
error is surfaced. -/
theorem signal_list_content_encoded :
    contentOk (Content.items [Atom.str "x"]) = true ∧
    streamBlocks { content := Content.items [Atom.str "x"], event_type := EventType.signal } =
      (["event: datastar-signal\ndata: x\n\n"], Option.none) := by
  decide

/-- C4 (amended): construction validates only that the content is a list,
string or mapping (anything else fails the assertion, and such content
also fails with `TypeError` if encoded); a Fragment-kind mapping without
a `fragment` key raises `KeyError` at encode time and is never silently
encoded as a block. -/
theorem content_shape_validation :
    (∀ (e : DatastarEvent) (c : FragmentConfig), e.event_type = EventType.fragment →
      c.fragment = Option.none →
      formatSse e (.cfg c) = .error .keyError ∧
      streamBlocks { e with content := .atom (.cfg c) } = ([], some .keyError)) ∧
    contentOk Content.other = false ∧
    (∀ e : DatastarEvent, e.content = Content.other →
      streamBlocks e = ([], some .typeError)) := by
  refine ⟨?_, rfl, ?_⟩
  · intro e c he hf
    obtain ⟨ec, em, es, esd, evt, erd, eer, eet⟩ := e
    obtain ⟨cf, cm, cs, csd, cvt, crd, cer⟩ := c
    have he' : eet = EventType.fragment := he
    subst he'
    have hf' : cf = Option.none := hf
    subst hf'
    exact ⟨rfl, rfl⟩
  · intro e hc
    obtain ⟨ec, em, es, esd, evt, erd, eer, eet⟩ := e
    have hc' : ec = Content.other := hc
    subst hc'
    rfl

/-- Concrete fragment-kind event with a fragment-less mapping content, for
the C4 witness. -/
def eC4 : DatastarEvent :=
  { content := Content.atom (Atom.cfg { merge := some MergeType.inner }) }

/-- C4 witness: the fragment-less mapping raises `KeyError` at encode time
at a concrete event; no block is produced. -/
theorem content_shape_validation_witness :
    formatSse eC4 (.cfg { merge := some MergeType.inner }) = .error .keyError ∧
    streamBlocks { eC4 with content := .atom (.cfg { merge := some MergeType.inner }) } =
      ([], some .keyError) :=
  content_shape_validation.1 eC4 { merge := some MergeType.inner } rfl rfl

/-- C5: a Signal event serializes a mapping content with `json.dumps` and
emits a string content verbatim, in either case as a single data line in
one block; concretely, content `{"a": 1}` encodes to exactly
`"event: datastar-signal\ndata: \x7b\"a\": 1\x7d\n\n"`. -/
theorem signal_encoding :
    (∀ kvs : List (String × Json),
      streamBlocks { content := Content.atom (Atom.json kvs), event_type := EventType.signal } =
        (["event: datastar-signal\n" ++ ("data: " ++ dumpsDict kvs) ++ "\n\n"], Option.none)) ∧
    (∀ s : String,
      streamBlocks { content := Content.atom (Atom.str s), event_type := EventType.signal } =
        (["event: datastar-signal\n" ++ ("data: " ++ s) ++ "\n\n"], Option.none)) ∧
    streamBlocks { content := Content.atom (Atom.json [("a", Json.int 1)]),
                   event_type := EventType.signal } =
      (["event: datastar-signal\ndata: \x7b\"a\": 1\x7d\n\n"], Option.none) :=
  ⟨fun kvs => rfl, fun s => rfl, by decide⟩

/-- Streamer run for the C6 scenario: the source raises on the first pull
and yields the string payload `"hi"` afterwards. -/
def pC6 : StreamerParams :=
  { gate := fun _ => true, timeAt := fun k => (k : Int) + 1, interval := 1,
    source := fun n => if n = 0 then PullResult.raises
      else PullResult.yields (Content.atom (Atom.str "hi")) }

/-- Streamer run for the C6 encoding-failure scenario: the first payload is
a mapping without a fragment key, so its encoding raises `KeyError`; the
source then yields the string payload `"ok"`. -/
def pC6f : StreamerParams :=
  { gate := fun _ => true, timeAt := fun k => (k : Int) + 1, interval := 1,
    source := fun n => if n = 0 then PullResult.yields (Content.atom (Atom.cfg {}))
      else PullResult.yields (Content.atom (Atom.str "ok")) }

/-- C6: on an eligible tick, source exhaustion breaks the loop cleanly (no
exception caught, nothing yielded), while any other failure — a pull that
raises, or a yielded payload whose construction assertion or encoding
raises — is caught and the loop keeps going, moving on to the next pull;
concretely, a source that raises once and then yields normally still has
its next payload's block emitted on the following tick, and likewise a
payload whose encoding fails does not stop the next payload from being
emitted. -/
theorem streamer_fault_policy :
    (∀ (p : StreamerParams) (k : Nat), (states p k).stopped = false →
      p.interval ≤ p.timeAt k - (states p k).lastYield → p.gate k = true →
      ((p.source (states p k).pulls = PullResult.exhausted →
          (tickRes p k).halted = true ∧ (tickRes p k).caught = false ∧
          (tickRes p k).blocks = [] ∧ (states p (k + 1)).stopped = true) ∧
       (p.source (states p k).pulls = PullResult.raises →
          (tickRes p k).caught = true ∧ (tickRes p k).halted = false ∧
          (states p (k + 1)).stopped = false ∧
          (states p (k + 1)).pulls = (states p k).pulls + 1) ∧
       (∀ c, p.source (states p k).pulls = PullResult.yields c →
          contentOk c = false ∨ (streamBlocks (mkStreamerEvent c)).2.isSome = true →
          (tickRes p k).caught = true ∧ (tickRes p k).halted = false ∧
          (states p (k + 1)).stopped = false ∧
          (states p (k + 1)).pulls = (states p k).pulls + 1))) ∧
    ((tickRes pC6 0).caught = true ∧ (tickRes pC6 0).halted = false ∧
      (tickRes pC6 1).success = true ∧
      (tickRes pC6 1).blocks = ["event: datastar-fragment\ndata: fragment hi\n\n"]) ∧
    ((tickRes pC6f 0).caught = true ∧ (tickRes pC6f 0).halted = false ∧
      (tickRes pC6f 1).success = true ∧
      (tickRes pC6f 1).blocks = ["event: datastar-fragment\ndata: fragment ok\n\n"]) := by
  refine ⟨?_, ⟨by decide, by decide, by decide, by decide⟩,
    ⟨by decide, by decide, by decide, by decide⟩⟩
  intro p k h0 h1 h2
  have hstep : states p (k + 1) = (tick p k (states p k)).1 := rfl
  have htr : tickRes p k = (tick p k (states p k)).2 := rfl
  refine ⟨?_, ?_, ?_⟩
  · intro hsrc
    rw [htr, hstep]
    unfold tick
    simp only [h0, if_false, Bool.false_eq_true]
    rw [if_pos ⟨h1, h2⟩, hsrc]
    exact ⟨rfl, rfl, rfl, rfl⟩
  · intro hsrc
    rw [htr, hstep]
    unfold tick
    simp only [h0, if_false, Bool.false_eq_true]
    rw [if_pos ⟨h1, h2⟩, hsrc]
    exact ⟨rfl, rfl, rfl, rfl⟩
  · intro c hsrc hbad
    rw [htr, hstep]
    unfold tick
    simp only [h0, if_false, Bool.false_eq_true]
    rw [if_pos ⟨h1, h2⟩, hsrc]
    by_cases hco : contentOk c = true
    · cases hout : (streamBlocks (mkStreamerEvent c)).2 with
      | none =>
          exfalso
          rcases hbad with hbad | hbad
          · rw [hco] at hbad
            exact Bool.noConfusion hbad
          · rw [hout] at hbad
            exact Bool.noConfusion hbad
      | some er => simp [hco, hout]
    · simp [hco]

/-- Streamer run for the C6 witness: the source is immediately exhausted. -/
def pC6e : StreamerParams :=
  { gate := fun _ => true, timeAt := fun k => (k : Int) + 1, interval := 1,
    source := fun _ => PullResult.exhausted }

/-- C6 witness: on a concrete run whose source is exhausted at once, the
first tick breaks the loop cleanly; on the concrete raise-then-yield run,
the first tick catches the pull failure without stopping; and on the
concrete encode-failure run, the first tick catches the encoding failure
without stopping, its pull consumed. -/
theorem streamer_fault_policy_witness :
    ((tickRes pC6e 0).halted = true ∧ (tickRes pC6e 0).caught = false ∧
      (tickRes pC6e 0).blocks = [] ∧ (states pC6e 1).stopped = true) ∧
    ((tickRes pC6 0).caught = true ∧ (tickRes pC6 0).halted = false ∧
      (states pC6 1).stopped = false ∧ (states pC6 1).pulls = (states pC6 0).pulls + 1) ∧
    ((tickRes pC6f 0).caught = true ∧ (tickRes pC6f 0).halted = false ∧
      (states pC6f 1).stopped = false ∧ (states pC6f 1).pulls = (states pC6f 0).pulls + 1) :=
  ⟨(streamer_fault_policy.1 pC6e 0 (by decide) (by decide) (by decide)).1 (by decide),
   (streamer_fault_policy.1 pC6 0 (by decide) (by decide) (by decide)).2.1 (by decide),
   (streamer_fault_policy.1 pC6f 0 (by decide) (by decide) (by decide)).2.2
     (Content.atom (Atom.cfg {})) (by decide) (Or.inr (by decide))⟩

/-- Streamer run for the C7 counterexample: the first payload encodes its
first item and then fails (its second item has no fragment key), the
second payload encodes fine; the clock advances by 1 per tick with a
configured interval of 10. -/
def pC7 : StreamerParams :=
  { gate := fun _ => true, timeAt := fun k => 100 + (k : Int), interval := 10,
    source := fun n => if n = 0 then
        PullResult.yields (Content.items [Atom.str "a", Atom.cfg {}])
      else PullResult.yields (Content.atom (Atom.str "b")) }

/-- C7 counterexample: blocks are emitted on two consecutive ticks only 1
time unit apart (less than the interval of 10), because a partly failed
emission yields blocks without recording `last_yield_time`. -/
theorem emission_spacing_violation :
    ¬ ∀ i j : Nat, i < j → (tickRes pC7 i).blocks ≠ [] → (tickRes pC7 j).blocks ≠ [] →
        (∀ k, i < k → k < j → (tickRes pC7 k).blocks = []) →
        pC7.interval ≤ pC7.timeAt j - pC7.timeAt i := by
  intro h
  have h01 := h 0 1 (by omega) (by decide) (by decide)
    (by intro k h1 h2; exfalso; omega)
  revert h01
  decide

/-- C7 (amended): across any run, two consecutive *successful* emissions
(ticks whose whole event encodes and which therefore record
`last_yield_time`) are at least the configured interval apart; a tick
whose encoding fails part-way can still push blocks downstream without
restarting the interval clock. -/
theorem successful_emission_spacing (p : StreamerParams) (i j : Nat) (hij : i < j)
    (hi : (tickRes p i).success = true) (hj : (tickRes p j).success = true)
    (hmid : ∀ k, i < k → k < j → (tickRes p k).success = false) :
    p.interval ≤ p.timeAt j - p.timeAt i := by
  have hfroz : (states p j).lastYield = p.timeAt i := by
    obtain ⟨d, rfl⟩ : ∃ d, j = i + 1 + d := ⟨j - i - 1, by omega⟩
    exact lastYield_frozen p i d hi hmid
  have helapsed := tick_success_elapsed p j (states p j) hj
  rw [hfroz] at helapsed
  exact helapsed

/-- Streamer run for the C7 witness: payloads always encode, the clock
advances by exactly the interval. -/
def pC7w : StreamerParams :=
  { gate := fun _ => true, timeAt := fun k => 10 * (k : Int) + 10, interval := 10,
    source := fun _ => PullResult.yields (Content.atom (Atom.str "w")) }

/-- C7 witness: on a concrete run the first two ticks both emit successfully
and their clock readings are at least the interval apart. -/
theorem successful_emission_spacing_witness :
    (tickRes pC7w 0).success = true ∧ (tickRes pC7w 1).success = true ∧
    pC7w.interval ≤ pC7w.timeAt 1 - pC7w.timeAt 0 :=
  ⟨by decide, by decide,
   successful_emission_spacing pC7w 0 1 (by omega) (by decide) (by decide)
     (by intro k h1 h2; exfalso; omega)⟩

/-- Streamer run for the C8 counterexample: the source always raises. -/
def pC8 : StreamerParams :=
  { gate := fun _ => true, timeAt := fun k => (k : Int) + 1, interval := 1,
    source := fun _ => PullResult.raises }

/-- C8 counterexample: an iteration that catches a failure does not reach
the sleep — the claim's caught-failure branch does not suspend. -/
theorem caught_failure_skips_sleep :
    (tickRes pC8 0).caught = true ∧ (tickRes pC8 0).halted = false ∧
    (tickRes pC8 0).slept = false := by
  decide

/-- C8 (amended): an iteration suspends for the idle-poll sleep exactly when
it neither breaks out of the loop nor catches a failure — the emit branch
and both skip branches sleep, while a caught failure skips the sleep and
the next tick starts immediately. -/
theorem sleep_per_branch (p : StreamerParams) (k : Nat) :
    ((tickRes p k).halted = false → (tickRes p k).caught = false →
      (tickRes p k).slept = true) ∧
    ((tickRes p k).caught = true → (tickRes p k).slept = false) := by
  constructor
  · intro h1 h2
    exact (tick_sleep_iff p k (states p k)).mpr ⟨h1, h2⟩
  · intro h1
    by_contra hs
    have hslept : (tickRes p k).slept = true := by
      cases hval : (tickRes p k).slept with
      | true => rfl
      | false => exact absurd hval hs
    have hcf : (tickRes p k).caught = false :=
      ((tick_sleep_iff p k (states p k)).mp hslept).2
    rw [h1] at hcf
    exact Bool.noConfusion hcf

/-- Streamer run for the C8 witness: the gate is always closed. -/
def pC8w : StreamerParams :=
  { gate := fun _ => false, timeAt := fun k => (k : Int) + 1, interval := 1,
    source := fun _ => PullResult.raises }

/-- C8 witness: a concrete gate-false iteration neither halts nor catches,
and it does sleep. -/
theorem sleep_per_branch_witness :
    (tickRes pC8w 0).halted = false ∧ (tickRes pC8w 0).caught = false ∧
    (tickRes pC8w 0).slept = true :=
  ⟨by decide, by decide, (sleep_per_branch pC8w 0).1 (by decide) (by decide)⟩

/-- C9: over a finite source whose payloads all pass the construction check
and encode without error, `create_sse_stream` produces exactly the
in-order concatenation, one payload after another, of that payload's
blocks followed by one interval sleep, and ends cleanly (no error) when
the source is exhausted. -/
theorem factory_stream_output (me : Option MergeType) (se : Option String) (sd : Option Int)
    (vt : Option Bool) (et : EventType) (ps : List Content)
    (h : ∀ c ∈ ps, contentOk c = true ∧
        (streamBlocks (mkFactoryEvent me se sd vt et c)).2 = Option.none) :
    createSseStream me se sd vt et ps =
      ((ps.map fun c =>
          ((streamBlocks (mkFactoryEvent me se sd vt et c)).1.map StreamItem.data) ++
            [StreamItem.sleep]).flatten,
        Option.none) := by
  induction ps with
  | nil => rfl
  | cons c rest ih =>
      obtain ⟨hok, henc⟩ := h c (List.mem_cons_self c rest)
      have hrest := ih (fun x hx => h x (List.mem_cons_of_mem c hx))
      unfold createSseStream
      simp only [hok, if_true, henc]
      rw [hrest]
      simp [List.append_assoc]

/-- The payload list of the C9 witness. -/
def psC9 : List Content := [Content.atom (Atom.str "hi")]

/-- C9 witness: a one-payload source produces that payload's single block
followed by one sleep, and the stream ends cleanly. -/
theorem factory_stream_output_witness :
    createSseStream Option.none Option.none Option.none Option.none EventType.fragment psC9 =
      ([StreamItem.data "event: datastar-fragment\ndata: fragment hi\n\n", StreamItem.sleep],
        Option.none) :=
  (factory_stream_output Option.none Option.none Option.none Option.none EventType.fragment psC9
    (by decide)).trans (by decide)

/-- C10: every block a streamer tick emits is a fragment block — it starts
with the `datastar-fragment` event header — and its data lines are built
with `settle`, `vt`, `redirect` and `error` all absent, so none of those
four lines can occur, whatever the payload. -/
theorem streamer_blocks_fragment_only (p : StreamerParams) (k : Nat) (b : String)
    (hb : b ∈ (tickRes p k).blocks) :
    (∃ rest, b = "event: datastar-fragment\n" ++ rest) ∧
    ∃ me se fr,
      b = "event: datastar-fragment\n" ++
        (joinData (dataLines me se Option.none Option.none Option.none Option.none fr) ++ "\n\n") ∧
      ∀ l ∈ dataLines me se Option.none Option.none Option.none Option.none fr,
        (∀ x, l ≠ "settle " ++ x) ∧ (∀ x, l ≠ "vt " ++ x) ∧
        (∀ x, l ≠ "redirect " ++ x) ∧ (∀ x, l ≠ "error " ++ x) := by
  obtain ⟨c, hc⟩ := tick_blocks_from_event p k (states p k) b hb
  obtain ⟨a, ha⟩ := mem_streamBlocks _ b hc
  obtain ⟨me, se, fr, hbeq⟩ := formatSse_streamer_shape c a b ha
  exact ⟨⟨_, hbeq⟩, me, se, fr, hbeq, dataLines_streamer_clean me se fr⟩

/-- Streamer run for the C10 witness: the source always yields the string
payload `"x"`. -/
def pC10 : StreamerParams :=
  { gate := fun _ => true, timeAt := fun k => (k : Int) + 1, interval := 1,
    source := fun _ => PullResult.yields (Content.atom (Atom.str "x")) }

/-- C10 witness: the concrete block emitted on the first tick of a concrete
run is a fragment block with no settle, vt, redirect or error line. -/
theorem streamer_blocks_fragment_only_witness :
    (∃ rest, "event: datastar-fragment\ndata: fragment x\n\n" =
      "event: datastar-fragment\n" ++ rest) ∧
    ∃ me se fr,
      "event: datastar-fragment\ndata: fragment x\n\n" = "event: datastar-fragment\n" ++
        (joinData (dataLines me se Option.none Option.none Option.none Option.none fr) ++ "\n\n") ∧
      ∀ l ∈ dataLines me se Option.none Option.none Option.none Option.none fr,
        (∀ x, l ≠ "settle " ++ x) ∧ (∀ x, l ≠ "vt " ++ x) ∧
        (∀ x, l ≠ "redirect " ++ x) ∧ (∀ x, l ≠ "error " ++ x) :=
  streamer_blocks_fragment_only pC10 0 "event: datastar-fragment\ndata: fragment x\n\n"
    (by decide)

example : dumpsDict [("a", Json.int 1)] = "\x7b\"a\": 1\x7d" := by decide

example :
    streamBlocks { content := .atom (.json [("a", Json.int 1)]), event_type := EventType.signal } =
      (["event: datastar-signal\ndata: \x7b\"a\": 1\x7d\n\n"], Option.none) := by decide

example :
    streamBlocks { content := .atom (.str "<div>hi</div>"), merge := some MergeType.inner } =
      (["event: datastar-fragment\ndata: merge inner_element\ndata: fragment <div>hi</div>\n\n"],
        Option.none) := by decide

example :
    streamBlocks { content := .atom (.str "") } =
      (["event: datastar-fragment\ndata: fragment \n\n"], Option.none) := by decide

end Datastar
